import Mathlib

/-!
Shallow embedding of the POS system (pos_frontend.py / pos_system.py).

The persistent store is the pair of SQL tables `inventory` and `sales`,
modelled as lists of rows.  SQL `REAL` columns (price, total_price) are
modelled as rationals, `INTEGER` columns as `Int`, and `AUTOINCREMENT`
primary keys as counters carried in the database state (SQLite never
reuses an AUTOINCREMENT id, so a monotone counter is faithful).
Timestamps are ISO-8601 strings in the source, produced by
`datetime.now().isoformat()` and compared lexicographically by
`ORDER BY`; since lexicographic order on ISO-8601 strings agrees with
chronological order, a timestamp is modelled as a `Nat` supplied by the
caller (the source reads the wall clock, an external input).

Each database function of the source returns a status message string;
those strings are modelled by inductive result types with one
constructor per `return` statement of the source, carrying the data
interpolated into the message.
-/

/-- A row of the `inventory` table
(id, name, price, quantity, image_path, favorite). -/
structure InventoryItem where
  id : Nat
  name : String
  price : ℚ
  quantity : Int
  image_path : Option String
  favorite : Bool
deriving DecidableEq, Repr, Inhabited

/-- A row of the `sales` table
(id, item_id, quantity, timestamp, total_price, cancelled). -/
structure Sale where
  id : Nat
  item_id : Nat
  quantity : Int
  timestamp : Nat
  total_price : ℚ
  cancelled : Bool
deriving DecidableEq, Repr, Inhabited

/-- The database state: the two tables plus the AUTOINCREMENT counters
for their primary keys. -/
structure DB where
  inventory : List InventoryItem
  sales : List Sale
  next_item_id : Nat
  next_sale_id : Nat
deriving DecidableEq, Repr, Inhabited

/-- Model of Python `str.strip()`: remove whitespace from both ends.
Lean's `String.trim` is extensionally the same operation but is defined
through `Substring` primitives that do not reduce in the kernel, so the
List-of-characters form is used instead. -/
def pyStrip (s : String) : String :=
  ⟨((s.data.dropWhile Char.isWhitespace).reverse.dropWhile
      Char.isWhitespace).reverse⟩

/-- Result of `record_sale_db` (pos_frontend.py lines 278-306), one
constructor per return statement, carrying the data interpolated into
the returned message string. -/
inductive SaleResult where
  | itemNotFound (item_id : Nat)
  | nonPositiveQuantity
  | insufficientStock (available : Int)
  | sold (name : String) (quantity : Int) (total : ℚ) (timestamp : Nat)
deriving DecidableEq, Repr

/-- Embedding of `record_sale_db(conn, item_id, quantity)`
(pos_frontend.py lines 278-306).  `now` models `datetime.now()`.
`SELECT ... WHERE id = ?` + `fetchone()` is the first matching row;
`UPDATE inventory SET quantity = quantity - ? WHERE id = ?` updates
every row whose id matches; the `INSERT` leaves `cancelled` at its
default 0 and draws a fresh AUTOINCREMENT id. -/
def record_sale_db (db : DB) (item_id : Nat) (quantity : Int) (now : Nat) :
    DB × SaleResult :=
  match db.inventory.find? (fun it => it.id = item_id) with
  | none => (db, .itemNotFound item_id)
  | some row =>
    if quantity ≤ 0 then (db, .nonPositiveQuantity)
    else if row.quantity < quantity then (db, .insufficientStock row.quantity)
    else
      let total := row.price * (quantity : ℚ)
      let inv := db.inventory.map (fun it =>
        if it.id = item_id then { it with quantity := it.quantity - quantity }
        else it)
      let sale : Sale :=
        { id := db.next_sale_id, item_id := item_id, quantity := quantity,
          timestamp := now, total_price := total, cancelled := false }
      ({ db with
          inventory := inv,
          sales := db.sales ++ [sale],
          next_sale_id := db.next_sale_id + 1 },
       .sold row.name quantity total now)

/-- Result of `cancel_sale_db` (pos_frontend.py lines 654-673). -/
inductive CancelResult where
  | saleNotFound
  | alreadyCancelled
  | ok
deriving DecidableEq, Repr

/-- Embedding of `cancel_sale_db(conn, sale_id)` (pos_frontend.py lines
654-673): fetch the sale, refuse if absent or already cancelled, else
set `cancelled = 1` on every sale row with that id and add the sale's
quantity back onto every inventory row whose id equals the sale's
item_id (a no-op when no such row exists). -/
def cancel_sale_db (db : DB) (sale_id : Nat) : DB × CancelResult :=
  match db.sales.find? (fun s => s.id = sale_id) with
  | none => (db, .saleNotFound)
  | some row =>
    if row.cancelled then (db, .alreadyCancelled)
    else
      let sales := db.sales.map (fun s =>
        if s.id = sale_id then { s with cancelled := true } else s)
      let inv := db.inventory.map (fun it =>
        if it.id = row.item_id then
          { it with quantity := it.quantity + row.quantity }
        else it)
      ({ db with sales := sales, inventory := inv }, .ok)

/-- Result of `delete_sale_db` (pos_frontend.py lines 687-705). -/
inductive DeleteResult where
  | saleNotFound
  | deletedAndAdjusted
  | deleted
deriving DecidableEq, Repr

/-- Embedding of `delete_sale_db(conn, sale_id)` (pos_frontend.py lines
687-705): fetch the sale; if absent report so; if the sale was not
cancelled, first add its quantity back onto every inventory row whose
id equals its item_id; then delete every sale row with that id. -/
def delete_sale_db (db : DB) (sale_id : Nat) : DB × DeleteResult :=
  match db.sales.find? (fun s => s.id = sale_id) with
  | none => (db, .saleNotFound)
  | some row =>
    let inv :=
      if row.cancelled then db.inventory
      else db.inventory.map (fun it =>
        if it.id = row.item_id then
          { it with quantity := it.quantity + row.quantity }
        else it)
    let sales := db.sales.filter (fun s => ¬ s.id = sale_id)
    ({ db with inventory := inv, sales := sales },
     if row.cancelled then .deleted else .deletedAndAdjusted)

/-- Result of `uncancel_sale_db` (pos_frontend.py lines 709-735). -/
inductive UncancelResult where
  | saleNotFound
  | notCancelled
  | itemNotFound
  | insufficientStock
  | ok
deriving DecidableEq, Repr

/-- Embedding of `uncancel_sale_db(conn, sale_id)` (pos_frontend.py
lines 709-735): fetch the sale; refuse if absent or not cancelled;
fetch the referenced item; refuse if the item is gone or its stock is
below the sale's quantity; otherwise deduct the quantity from every
inventory row with that id and set `cancelled = 0` on every sale row
with the given sale id. -/
def uncancel_sale_db (db : DB) (sale_id : Nat) : DB × UncancelResult :=
  match db.sales.find? (fun s => s.id = sale_id) with
  | none => (db, .saleNotFound)
  | some row =>
    if ¬ row.cancelled then (db, .notCancelled)
    else
      match db.inventory.find? (fun it => it.id = row.item_id) with
      | none => (db, .itemNotFound)
      | some item_row =>
        if item_row.quantity < row.quantity then (db, .insufficientStock)
        else
          let inv := db.inventory.map (fun it =>
            if it.id = row.item_id then
              { it with quantity := it.quantity - row.quantity }
            else it)
          let sales := db.sales.map (fun s =>
            if s.id = sale_id then { s with cancelled := false } else s)
          ({ db with inventory := inv, sales := sales }, .ok)

/-- A row of the result set of `list_sales` (pos_frontend.py lines
309-325): sale id, the joined item name, quantity, total, timestamp,
cancelled flag. -/
structure SaleView where
  id : Nat
  item_name : String
  quantity : Int
  total_price : ℚ
  timestamp : Nat
  cancelled : Bool
deriving DecidableEq, Repr, Inhabited

/-- Insert a view into a list that is sorted by descending timestamp,
keeping it sorted (model of the ordering produced by
`ORDER BY sales.timestamp DESC`). -/
def insertByTimestampDesc (v : SaleView) : List SaleView → List SaleView
  | [] => [v]
  | w :: ws =>
    if w.timestamp ≤ v.timestamp then v :: w :: ws
    else w :: insertByTimestampDesc v ws

/-- Sort a list of views by descending timestamp (model of
`ORDER BY sales.timestamp DESC`; SQL leaves the relative order of equal
keys unspecified, and any order of equal keys satisfies the properties
proved below). -/
def sortByTimestampDesc : List SaleView → List SaleView
  | [] => []
  | v :: vs => insertByTimestampDesc v (sortByTimestampDesc vs)

/-- Embedding of `list_sales(conn)` (pos_frontend.py lines 309-325):
`SELECT ... FROM sales JOIN inventory ON sales.item_id = inventory.id
ORDER BY sales.timestamp DESC`.  The INNER JOIN produces one output row
per pair of a sale and an inventory row with matching id; a sale whose
item no longer exists contributes nothing. -/
def list_sales (db : DB) : List SaleView :=
  sortByTimestampDesc
    (db.sales.flatMap (fun s =>
      (db.inventory.filter (fun it => it.id = s.item_id)).map (fun it =>
        { id := s.id, item_name := it.name, quantity := s.quantity,
          total_price := s.total_price, timestamp := s.timestamp,
          cancelled := s.cancelled })))

/-- Embedding of `add_item_with_image(conn, name, price, quantity,
image_path)` (pos_frontend.py lines 231-236): insert a new inventory
row with the stripped name, the given price, quantity and image path;
`favorite` takes its column default 0 and the id is the next
AUTOINCREMENT value. -/
def add_item_with_image (db : DB) (name : String) (price : ℚ)
    (quantity : Int) (image_path : Option String) : DB :=
  { db with
    inventory := db.inventory ++
      [{ id := db.next_item_id, name := pyStrip name, price := price,
         quantity := quantity, image_path := image_path, favorite := false }],
    next_item_id := db.next_item_id + 1 }

/-- Result of the POST branch of the `add_item` route (pos_frontend.py
lines 411-453), one constructor per outcome flashed to the user. -/
inductive AddItemResult where
  | emptyName
  | invalidNumber
  | added
deriving DecidableEq, Repr

/-- Embedding of the POST branch of the `add_item` route
(pos_frontend.py lines 411-453).  The route strips the name and rejects
it when empty, then parses the price with Python `float()` and the
quantity with Python `int()`, rejecting the request if either raises
`ValueError`; the parse outcomes are passed here as `Option` values
(`none` = `ValueError`; note Python `float` and `int` both accept
negative literals such as "-1", so a `some` value may be negative).
On success the row is inserted via `add_item_with_image`.  The image
upload handling is file-system glue outside the data model; its result
is the `image_path` passed through. -/
def add_item (db : DB) (name : String) (priceParse : Option ℚ)
    (qtyParse : Option Int) (image_path : Option String) :
    DB × AddItemResult :=
  let nm := pyStrip name
  if nm = "" then (db, .emptyName)
  else
    match priceParse, qtyParse with
    | some price, some quantity =>
        (add_item_with_image db nm price quantity image_path, .added)
    | _, _ => (db, .invalidNumber)

/-- Embedding of `update_item_db(conn, item_id, name, price, quantity,
image_path)` (pos_frontend.py lines 239-275): each argument that is not
`None` contributes a `SET` clause; a supplied name is stored stripped;
if no field is supplied the function returns without touching the
database; otherwise `UPDATE inventory SET ... WHERE id = ?` rewrites
every row whose id matches. -/
def update_item_db (db : DB) (item_id : Nat) (name : Option String)
    (price : Option ℚ) (quantity : Option Int)
    (image_path : Option String) : DB :=
  if name = none ∧ price = none ∧ quantity = none ∧ image_path = none then
    db
  else
    { db with inventory := db.inventory.map (fun it =>
        if it.id = item_id then
          { it with
            name := (name.map pyStrip).getD it.name,
            price := price.getD it.price,
            quantity := quantity.getD it.quantity,
            image_path := (image_path.map some).getD it.image_path }
        else it) }

/-- Embedding of the `checkout` route's database work (pos_frontend.py
lines 604-619): for each cart line (item id, quantity) in order, call
`record_sale_db` and collect its status message; the loop never stops
early because `record_sale_db` reports failure through its return
value, not an exception. -/
def checkout (db : DB) (cart : List (Nat × Int)) (now : Nat) :
    DB × List SaleResult :=
  cart.foldl
    (fun acc line =>
      let r := record_sale_db acc.1 line.1 line.2 now
      (r.1, acc.2 ++ [r.2]))
    (db, [])

/-- The sale-lifecycle operations of claim C1: sell, cancel, uncancel
and sale deletion (no item edits or item deletions). -/
inductive LedgerOp where
  | sell (item_id : Nat) (quantity : Int) (now : Nat)
  | cancel (sale_id : Nat)
  | uncancel (sale_id : Nat)
  | deleteSale (sale_id : Nat)
deriving DecidableEq, Repr

/-- Apply one ledger operation, discarding the status message. -/
def applyOp (db : DB) : LedgerOp → DB
  | .sell item_id q now => (record_sale_db db item_id q now).1
  | .cancel sale_id => (cancel_sale_db db sale_id).1
  | .uncancel sale_id => (uncancel_sale_db db sale_id).1
  | .deleteSale sale_id => (delete_sale_db db sale_id).1

/-- Apply a sequence of ledger operations from left to right. -/
def applyOps (db : DB) (ops : List LedgerOp) : DB :=
  ops.foldl applyOp db

/-- Sum of the quantities of the non-cancelled sales that reference the
inventory item with the given id. -/
def activeSalesSum (sales : List Sale) (item_id : Nat) : Int :=
  ((sales.filter (fun s => ¬ s.cancelled ∧ s.item_id = item_id)).map
    Sale.quantity).sum

/-- Well-formedness of the sales table as maintained by SQLite: every
sale id is below the AUTOINCREMENT counter and the primary-key column
is duplicate-free. -/
def SalesWF (db : DB) : Prop :=
  (∀ s ∈ db.sales, s.id < db.next_sale_id) ∧
  db.sales.Pairwise (fun a b => a.id ≠ b.id)

/-- The inventory primary-key column is duplicate-free. -/
def InventoryWF (db : DB) : Prop :=
  db.inventory.Pairwise (fun a b => a.id ≠ b.id)

/-- Concrete inventory row used by witnesses: ten apples at price 2. -/
def itemApple : InventoryItem :=
  { id := 1, name := "apple", price := 2, quantity := 10,
    image_path := none, favorite := false }

/-- Concrete inventory row used by witnesses: one banana at price 1. -/
def itemBanana : InventoryItem :=
  { id := 2, name := "banana", price := 1, quantity := 1,
    image_path := none, favorite := false }

/-- Concrete database with two items and no sales. -/
def dbW : DB :=
  { inventory := [itemApple, itemBanana], sales := [],
    next_item_id := 3, next_sale_id := 1 }

/-- Concrete active sale of three apples. -/
def saleS1 : Sale :=
  { id := 1, item_id := 1, quantity := 3, timestamp := 100,
    total_price := 6, cancelled := false }

/-- Concrete cancelled sale of two apples. -/
def saleS2 : Sale :=
  { id := 2, item_id := 1, quantity := 2, timestamp := 200,
    total_price := 4, cancelled := true }

/-- Concrete database with one active and one cancelled sale. -/
def dbS : DB :=
  { inventory := [itemApple, itemBanana], sales := [saleS1, saleS2],
    next_item_id := 3, next_sale_id := 3 }

/-- Concrete active sale whose referenced item (id 9) does not exist. -/
def saleOrphan : Sale :=
  { id := 5, item_id := 9, quantity := 4, timestamp := 50,
    total_price := 8, cancelled := false }

/-- Concrete database holding a sale that references a deleted item. -/
def dbOrphan : DB :=
  { inventory := [itemApple], sales := [saleOrphan],
    next_item_id := 2, next_sale_id := 6 }

/-- Quantity-conservation invariant of claim C1, relating a database
reached by ledger operations to the starting database `db0`: the
inventory rows are in bijection positionally with unchanged ids, and
each row's original quantity equals its current quantity plus the
total quantity of the non-cancelled sales referencing its id. -/
def LedgerInv (db0 db : DB) : Prop :=
  db.inventory.length = db0.inventory.length ∧
  ∀ k, k < db0.inventory.length →
    (db.inventory.getD k default).id =
      (db0.inventory.getD k default).id ∧
    (db0.inventory.getD k default).quantity =
      (db.inventory.getD k default).quantity +
        activeSalesSum db.sales (db0.inventory.getD k default).id

-- General list lemmas used to reason about the SQL row operations.

theorem map_ite_eq_self {α : Type} (l : List α) (p : α → Prop)
    [DecidablePred p] (f : α → α) (h : ∀ x ∈ l, ¬ p x) :
    (l.map fun x => if p x then f x else x) = l := by
  induction l with
  | nil => rfl
  | cons a t ih =>
    have ha := h a (List.mem_cons_self a t)
    simp only [List.map_cons, if_neg ha,
      ih (fun x hx => h x (List.mem_cons_of_mem a hx))]

theorem map_ite_decomp {α : Type} (l1 l2 : List α) (row : α) (p : α → Prop)
    [DecidablePred p] (f : α → α)
    (h1 : ∀ x ∈ l1, ¬ p x) (h2 : ∀ x ∈ l2, ¬ p x) (hrow : p row) :
    ((l1 ++ row :: l2).map fun x => if p x then f x else x) =
      l1 ++ f row :: l2 := by
  simp only [List.map_append, List.map_cons, if_pos hrow,
    map_ite_eq_self l1 p f h1, map_ite_eq_self l2 p f h2]

theorem filter_not_decomp {α : Type} (l1 l2 : List α) (row : α)
    (p : α → Prop) [DecidablePred p]
    (h1 : ∀ x ∈ l1, ¬ p x) (h2 : ∀ x ∈ l2, ¬ p x) (hrow : p row) :
    ((l1 ++ row :: l2).filter fun x => ¬ p x) = l1 ++ l2 := by
  have keep : ∀ m : List α, (∀ x ∈ m, ¬ p x) →
      (m.filter fun x => ¬ p x) = m := by
    intro m hm
    induction m with
    | nil => rfl
    | cons a t ih =>
      have ha := hm a (List.mem_cons_self a t)
      simp only [List.filter_cons, decide_eq_true_eq, if_pos ha,
        ih (fun x hx => hm x (List.mem_cons_of_mem a hx))]
  simp only [List.filter_append, List.filter_cons, decide_eq_true_eq,
    if_neg (not_not_intro hrow), keep l1 h1, keep l2 h2]

theorem find?_key_decomp {α : Type} (l : List α) (key : α → Nat) (k : Nat)
    (row : α) (hfind : l.find? (fun x => key x = k) = some row)
    (hpw : l.Pairwise (fun a b => key a ≠ key b)) :
    key row = k ∧
      ∃ l1 l2, l = l1 ++ row :: l2 ∧
        (∀ x ∈ l1, ¬ key x = k) ∧ (∀ x ∈ l2, ¬ key x = k) := by
  obtain ⟨hp, l1, l2, hl, hl1⟩ := List.find?_eq_some.mp hfind
  have hrowk : key row = k := by simpa using hp
  refine ⟨hrowk, l1, l2, hl, ?_, ?_⟩
  · intro x hx
    have := hl1 x hx
    simpa using this
  · intro x hx
    have hpw2 : (l1 ++ row :: l2).Pairwise (fun a b => key a ≠ key b) :=
      hl ▸ hpw
    have hcross := (List.pairwise_append.mp hpw2).2.1
    have hne : key row ≠ key x :=
      (List.pairwise_cons.mp hcross).1 x hx
    intro hxk
    exact hne (by rw [hrowk, hxk])

theorem find?_map_ite {α : Type} (l : List α) (p : α → Prop)
    [DecidablePred p] (f : α → α) (hf : ∀ x, p (f x) ↔ p x) (row : α)
    (h : l.find? (fun x => p x) = some row) :
    ((l.map fun x => if p x then f x else x).find? (fun x => p x)) =
      some (f row) := by
  induction l with
  | nil => simp at h
  | cons a t ih =>
    by_cases ha : p a
    · have hrow : row = a := by
        simp only [List.find?_cons, decide_eq_true ha] at h
        exact (Option.some_inj.mp h).symm
      subst hrow
      simp only [List.map_cons, if_pos ha, List.find?_cons,
        decide_eq_true ((hf row).mpr ha)]
    · simp only [List.find?_cons] at h
      rw [decide_eq_false ha] at h
      have := ih h
      simp only [List.map_cons, if_neg ha, List.find?_cons,
        decide_eq_false ha]
      exact this

theorem map_map_ite_cancel {α : Type} (l : List α) (p : α → Prop)
    [DecidablePred p] (f g : α → α)
    (hfp : ∀ x, p (f x) ↔ p x) (hgf : ∀ x, p x → g (f x) = x) :
    (((l.map fun x => if p x then f x else x).map
        fun x => if p x then g x else x)) = l := by
  induction l with
  | nil => rfl
  | cons a t ih =>
    by_cases ha : p a
    · simp only [List.map_cons, if_pos ha, if_pos ((hfp a).mpr ha),
        hgf a ha, ih]
    · simp only [List.map_cons, if_neg ha, if_neg ha, ih]

theorem activeSalesSum_append (l1 l2 : List Sale) (item_id : Nat) :
    activeSalesSum (l1 ++ l2) item_id =
      activeSalesSum l1 item_id + activeSalesSum l2 item_id := by
  simp [activeSalesSum, List.filter_append]

theorem activeSalesSum_cons (s : Sale) (l : List Sale) (item_id : Nat) :
    activeSalesSum (s :: l) item_id =
      (if ¬ s.cancelled ∧ s.item_id = item_id then s.quantity else 0) +
        activeSalesSum l item_id := by
  by_cases hc : s.cancelled
  · simp [activeSalesSum, List.filter_cons, hc]
  · by_cases hi : s.item_id = item_id
    · simp [activeSalesSum, List.filter_cons, hc, hi]
    · simp [activeSalesSum, List.filter_cons, hc, hi]

/-- C3: when the item referenced by a sell is missing, when the
requested quantity is not positive, and when the stock is below the
requested quantity, `record_sale_db` returns the corresponding error
result — the insufficient-stock error carrying the quantity available
at that moment — and returns the database state completely unchanged
in all three cases. -/
theorem c3_sell_failure_frame (db : DB) (item_id : Nat) (q : Int)
    (now : Nat) :
    (db.inventory.find? (fun it => it.id = item_id) = none →
      record_sale_db db item_id q now = (db, .itemNotFound item_id)) ∧
    (∀ row, db.inventory.find? (fun it => it.id = item_id) = some row →
      q ≤ 0 → record_sale_db db item_id q now = (db, .nonPositiveQuantity)) ∧
    (∀ row, db.inventory.find? (fun it => it.id = item_id) = some row →
      0 < q → row.quantity < q →
      record_sale_db db item_id q now =
        (db, .insufficientStock row.quantity)) := by
  refine ⟨?_, ?_, ?_⟩
  · intro h
    simp [record_sale_db, h]
  · intro row h hq
    simp [record_sale_db, h, hq]
  · intro row h hq hlt
    have hq2 : ¬ q ≤ 0 := not_le.mpr hq
    simp [record_sale_db, h, hq2, hlt]

/-- Witness for C3: in the concrete database `dbW`, selling item 7
(absent), selling item 1 with quantity 0, and selling 20 apples when
only 10 are in stock each fail as claimed without touching the state. -/
theorem c3_sell_failure_frame_witness :
    (dbW.inventory.find? (fun it => it.id = 7) = none ∧
      record_sale_db dbW 7 1 0 = (dbW, .itemNotFound 7)) ∧
    (dbW.inventory.find? (fun it => it.id = 1) = some itemApple ∧
      (0 : Int) ≤ 0 ∧
      record_sale_db dbW 1 0 0 = (dbW, .nonPositiveQuantity)) ∧
    (dbW.inventory.find? (fun it => it.id = 1) = some itemApple ∧
      (0 : Int) < 20 ∧ itemApple.quantity < 20 ∧
      record_sale_db dbW 1 20 0 = (dbW, .insufficientStock 10)) :=
  ⟨⟨by decide, (c3_sell_failure_frame dbW 7 1 0).1 (by decide)⟩,
   ⟨by decide, by decide,
    (c3_sell_failure_frame dbW 1 0 0).2.1 itemApple (by decide) (by decide)⟩,
   ⟨by decide, by decide, by decide,
    (c3_sell_failure_frame dbW 1 20 0).2.2 itemApple (by decide)
      (by decide) (by decide)⟩⟩

/-- C2: a successful sell on the item matched by `item_id` decrements
exactly that inventory row's quantity by `q`, leaves every other
inventory row unchanged, and appends exactly one new sale row that is
non-cancelled, references the item, has quantity `q`, the current
timestamp, and total price equal to the item's price at that instant
times `q`; no existing sale row is changed. -/
theorem c2_sell_success (db : DB) (item_id : Nat) (q : Int) (now : Nat)
    (row : InventoryItem) (hpw : InventoryWF db)
    (hfind : db.inventory.find? (fun it => it.id = item_id) = some row)
    (hq : 0 < q) (hs : ¬ row.quantity < q) :
    ∃ l1 l2,
      db.inventory = l1 ++ row :: l2 ∧
      (record_sale_db db item_id q now).1.inventory =
        l1 ++ { row with quantity := row.quantity - q } :: l2 ∧
      (record_sale_db db item_id q now).1.sales =
        db.sales ++ [{ id := db.next_sale_id, item_id := item_id,
                       quantity := q, timestamp := now,
                       total_price := row.price * (q : ℚ),
                       cancelled := false }] ∧
      (record_sale_db db item_id q now).2 =
        .sold row.name q (row.price * (q : ℚ)) now := by
  obtain ⟨hrowk, l1, l2, hl, h1, h2⟩ :=
    find?_key_decomp db.inventory InventoryItem.id item_id row hfind hpw
  have hq2 : ¬ q ≤ 0 := not_le.mpr hq
  refine ⟨l1, l2, hl, ?_, ?_, ?_⟩
  · simp only [record_sale_db, hfind, hq2, hs, if_false]
    rw [hl]
    exact map_ite_decomp l1 l2 row (fun it => it.id = item_id)
      (fun it => { it with quantity := it.quantity - q }) h1 h2 hrowk
  · simp [record_sale_db, hfind, hq2, hs]
  · simp [record_sale_db, hfind, hq2, hs]

/-- Witness for C2: selling three apples in the concrete database
`dbW` splits the inventory around the apple row, decrements it to
seven, and appends the expected sale row. -/
theorem c2_sell_success_witness :
    InventoryWF dbW ∧
    dbW.inventory.find? (fun it => it.id = 1) = some itemApple ∧
    (0 : Int) < 3 ∧ ¬ itemApple.quantity < 3 ∧
    ∃ l1 l2,
      dbW.inventory = l1 ++ itemApple :: l2 ∧
      (record_sale_db dbW 1 3 100).1.inventory =
        l1 ++ { itemApple with quantity := itemApple.quantity - 3 } :: l2 ∧
      (record_sale_db dbW 1 3 100).1.sales =
        dbW.sales ++ [{ id := dbW.next_sale_id, item_id := 1,
                        quantity := 3, timestamp := 100,
                        total_price := itemApple.price * (3 : ℚ),
                        cancelled := false }] ∧
      (record_sale_db dbW 1 3 100).2 =
        .sold itemApple.name 3 (itemApple.price * (3 : ℚ)) 100 :=
  ⟨by constructor <;> decide, by decide, by decide, by decide,
   c2_sell_success dbW 1 3 100 itemApple (by constructor <;> decide)
     (by decide) (by decide) (by decide)⟩

theorem getD_map_ite {α : Type} [Inhabited α] (l : List α) (p : α → Prop)
    [DecidablePred p] (f : α → α) (k : Nat) (hk : k < l.length) :
    ((l.map fun x => if p x then f x else x).getD k default) =
      (if p (l.getD k default) then f (l.getD k default)
       else l.getD k default) := by
  rw [List.getD_eq_getElem?_getD, List.getElem?_map,
    List.getD_eq_getElem?_getD, List.getElem?_eq_getElem hk]
  simp

/-- C5: deleting an existing sale removes exactly that sale row and no
other; when the sale was active, every inventory row whose id equals
the sale's item id (at most one row, by the primary key) is credited
the sale's quantity exactly once, and when the sale was cancelled no
inventory row is adjusted at all. -/
theorem c5_delete_sale (db : DB) (sale_id : Nat) (row : Sale)
    (hpwS : db.sales.Pairwise (fun a b => a.id ≠ b.id))
    (hfind : db.sales.find? (fun s => s.id = sale_id) = some row) :
    (∃ l1 l2, db.sales = l1 ++ row :: l2 ∧
       (delete_sale_db db sale_id).1.sales = l1 ++ l2) ∧
    (delete_sale_db db sale_id).1.inventory.length =
      db.inventory.length ∧
    (∀ k, k < db.inventory.length →
      (delete_sale_db db sale_id).1.inventory.getD k default =
        (if ¬ row.cancelled ∧
            (db.inventory.getD k default).id = row.item_id
         then { db.inventory.getD k default with
                quantity :=
                  (db.inventory.getD k default).quantity + row.quantity }
         else db.inventory.getD k default)) ∧
    (delete_sale_db db sale_id).2 =
      (if row.cancelled then .deleted else .deletedAndAdjusted) := by
  obtain ⟨hrowk, l1, l2, hl, h1, h2⟩ :=
    find?_key_decomp db.sales Sale.id sale_id row hfind hpwS
  refine ⟨⟨l1, l2, hl, ?_⟩, ?_, ?_, ?_⟩
  · simp only [delete_sale_db, hfind]
    rw [hl]
    exact filter_not_decomp l1 l2 row (fun s => s.id = sale_id) h1 h2 hrowk
  · by_cases hc : row.cancelled
    · simp [delete_sale_db, hfind, hc]
    · simp [delete_sale_db, hfind, hc]
  · intro k hk
    by_cases hc : row.cancelled
    · simp [delete_sale_db, hfind, hc]
    · simp only [delete_sale_db, hfind, if_neg hc]
      rw [getD_map_ite db.inventory
        (fun it => it.id = row.item_id)
        (fun it => { it with quantity := it.quantity + row.quantity })
        k hk]
      simp [hc]
  · by_cases hc : row.cancelled
    · simp [delete_sale_db, hfind, hc]
    · simp [delete_sale_db, hfind, hc]

/-- Witness for C5: deleting the active sale 1 of `dbS` removes it,
restores ten apples, and reports that inventory was adjusted. -/
theorem c5_delete_sale_witness :
    dbS.sales.Pairwise (fun a b => a.id ≠ b.id) ∧
    dbS.sales.find? (fun s => s.id = 1) = some saleS1 ∧
    ((∃ l1 l2, dbS.sales = l1 ++ saleS1 :: l2 ∧
       (delete_sale_db dbS 1).1.sales = l1 ++ l2) ∧
     (delete_sale_db dbS 1).1.inventory.length = dbS.inventory.length ∧
     (∀ k, k < dbS.inventory.length →
       (delete_sale_db dbS 1).1.inventory.getD k default =
         (if ¬ saleS1.cancelled ∧
             (dbS.inventory.getD k default).id = saleS1.item_id
          then { dbS.inventory.getD k default with
                 quantity :=
                   (dbS.inventory.getD k default).quantity +
                     saleS1.quantity }
          else dbS.inventory.getD k default)) ∧
     (delete_sale_db dbS 1).2 =
       (if saleS1.cancelled then .deleted else .deletedAndAdjusted)) :=
  ⟨by constructor <;> decide, by decide,
   c5_delete_sale dbS 1 saleS1 (by constructor <;> decide) (by decide)⟩

/-- C9: for a sale whose referenced item has been deleted, cancelling
it (when active) still succeeds and marks it cancelled, deleting it
still succeeds and removes the row, and in both cases the inventory
restoration step touches no inventory row and raises no error. -/
theorem c9_dangling_item (db : DB) (sale_id : Nat) (row : Sale)
    (hfind : db.sales.find? (fun s => s.id = sale_id) = some row)
    (hitem : db.inventory.find? (fun it => it.id = row.item_id) = none) :
    (row.cancelled = false →
      (cancel_sale_db db sale_id).2 = .ok ∧
      (cancel_sale_db db sale_id).1.inventory = db.inventory ∧
      (cancel_sale_db db sale_id).1.sales.find?
          (fun s => s.id = sale_id) = some { row with cancelled := true }) ∧
    ((delete_sale_db db sale_id).2 =
        (if row.cancelled then .deleted else .deletedAndAdjusted) ∧
     (delete_sale_db db sale_id).1.inventory = db.inventory ∧
     ∀ t ∈ (delete_sale_db db sale_id).1.sales, t.id ≠ sale_id) := by
  have hnone : ∀ it ∈ db.inventory, ¬ it.id = row.item_id := by
    intro it hit
    have := List.find?_eq_none.mp hitem it hit
    simpa using this
  have hinv : (db.inventory.map fun it =>
      if it.id = row.item_id then
        { it with quantity := it.quantity + row.quantity }
      else it) = db.inventory :=
    map_ite_eq_self db.inventory (fun it => it.id = row.item_id)
      (fun it => { it with quantity := it.quantity + row.quantity }) hnone
  refine ⟨?_, ?_, ?_, ?_⟩
  · intro hact
    refine ⟨?_, ?_, ?_⟩
    · simp [cancel_sale_db, hfind, hact]
    · simp only [cancel_sale_db, hfind, hact]
      simpa using hinv
    · simp only [cancel_sale_db, hfind, hact, Bool.false_eq_true,
        if_false]
      exact find?_map_ite db.sales (fun s => s.id = sale_id)
        (fun s => { s with cancelled := true }) (fun s => Iff.rfl)
        row hfind
  · by_cases hc : row.cancelled
    · simp [delete_sale_db, hfind, hc]
    · simp [delete_sale_db, hfind, hc]
  · by_cases hc : row.cancelled
    · simp [delete_sale_db, hfind, hc]
    · simp only [delete_sale_db, hfind, if_neg hc]
      simpa using hinv
  · intro t ht
    simp only [delete_sale_db, hfind] at ht
    have := (List.mem_filter.mp ht).2
    simpa using this

/-- Witness for C9: in `dbOrphan` the active sale 5 references the
missing item 9; cancelling and deleting it both succeed while the
inventory stays exactly as it was. -/
theorem c9_dangling_item_witness :
    dbOrphan.sales.find? (fun s => s.id = 5) = some saleOrphan ∧
    dbOrphan.inventory.find? (fun it => it.id = saleOrphan.item_id) =
      none ∧
    ((saleOrphan.cancelled = false →
      (cancel_sale_db dbOrphan 5).2 = .ok ∧
      (cancel_sale_db dbOrphan 5).1.inventory = dbOrphan.inventory ∧
      (cancel_sale_db dbOrphan 5).1.sales.find? (fun s => s.id = 5) =
        some { saleOrphan with cancelled := true }) ∧
     ((delete_sale_db dbOrphan 5).2 =
        (if saleOrphan.cancelled then .deleted
         else .deletedAndAdjusted) ∧
      (delete_sale_db dbOrphan 5).1.inventory = dbOrphan.inventory ∧
      ∀ t ∈ (delete_sale_db dbOrphan 5).1.sales, t.id ≠ 5)) :=
  ⟨by decide, by decide,
   c9_dangling_item dbOrphan 5 saleOrphan (by decide) (by decide)⟩

/-- C6: for an active sale on an existing item, cancelling and then
immediately uncancelling the sale — when the uncancel succeeds —
returns the whole database to exactly its prior state: the item's
quantity is back to its pre-cancel value and the sale is active
again. -/
theorem c6_cancel_uncancel_roundtrip (db : DB) (sale_id : Nat) (s : Sale)
    (it : InventoryItem)
    (hpwS : db.sales.Pairwise (fun a b => a.id ≠ b.id))
    (hfind : db.sales.find? (fun x => x.id = sale_id) = some s)
    (hact : s.cancelled = false)
    (hit : db.inventory.find? (fun x => x.id = s.item_id) = some it)
    (hok : (uncancel_sale_db (cancel_sale_db db sale_id).1 sale_id).2 =
      .ok) :
    (cancel_sale_db db sale_id).2 = .ok ∧
    (uncancel_sale_db (cancel_sale_db db sale_id).1 sale_id).1 = db := by
  obtain ⟨hrowk, l1, l2, hl, h1, h2⟩ :=
    find?_key_decomp db.sales Sale.id sale_id s hfind hpwS
  have hc : cancel_sale_db db sale_id =
      ({ db with
          sales := db.sales.map (fun x =>
            if x.id = sale_id then { x with cancelled := true } else x),
          inventory := db.inventory.map (fun x =>
            if x.id = s.item_id then
              { x with quantity := x.quantity + s.quantity }
            else x) }, .ok) := by
    simp [cancel_sale_db, hfind, hact]
  have hfind1 : ((cancel_sale_db db sale_id).1.sales.find?
      (fun x => x.id = sale_id)) = some { s with cancelled := true } := by
    rw [hc]
    exact find?_map_ite db.sales (fun x => x.id = sale_id)
      (fun x => { x with cancelled := true }) (fun x => Iff.rfl) s hfind
  have hit1 : ((cancel_sale_db db sale_id).1.inventory.find?
      (fun x => x.id = s.item_id)) =
      some { it with quantity := it.quantity + s.quantity } := by
    rw [hc]
    exact find?_map_ite db.inventory (fun x => x.id = s.item_id)
      (fun x => { x with quantity := x.quantity + s.quantity })
      (fun x => Iff.rfl) it hit
  refine ⟨by rw [hc], ?_⟩
  by_cases hlt : ({ it with quantity := it.quantity + s.quantity }
      : InventoryItem).quantity < ({ s with cancelled := true }
      : Sale).quantity
  · exfalso
    have : (uncancel_sale_db (cancel_sale_db db sale_id).1 sale_id).2 =
        .insufficientStock := by
      simp [uncancel_sale_db, hfind1, hit1, hlt]
    rw [this] at hok
    exact absurd hok (by simp)
  · have hinv2 : ((cancel_sale_db db sale_id).1.inventory.map (fun x =>
        if x.id = s.item_id then
          { x with quantity := x.quantity - s.quantity }
        else x)) = db.inventory := by
      rw [hc]
      exact map_map_ite_cancel db.inventory (fun x => x.id = s.item_id)
        (fun x => { x with quantity := x.quantity + s.quantity })
        (fun x => { x with quantity := x.quantity - s.quantity })
        (fun x => Iff.rfl)
        (fun x _ => by simp)
    have hsales2 : ((cancel_sale_db db sale_id).1.sales.map (fun x =>
        if x.id = sale_id then { x with cancelled := false } else x)) =
        db.sales := by
      rw [hc, hl]
      rw [map_ite_decomp l1 l2 s (fun x => x.id = sale_id)
        (fun x => { x with cancelled := true }) h1 h2 hrowk]
      rw [map_ite_decomp l1 l2 { s with cancelled := true }
        (fun x => x.id = sale_id)
        (fun x => { x with cancelled := false }) h1 h2 hrowk]
      have : ({ s with cancelled := false } : Sale) = s := by
        cases s
        simp_all
      rw [this]
    have hun : (uncancel_sale_db (cancel_sale_db db sale_id).1 sale_id) =
        ({ (cancel_sale_db db sale_id).1 with
            inventory := db.inventory, sales := db.sales }, .ok) := by
      rw [uncancel_sale_db]
      rw [hfind1]
      simp only [Bool.not_eq_true]
      rw [hit1]
      simp only [hlt, if_false, hinv2, hsales2]
      simp
    rw [hun, hc]

/-- Witness for C6: cancelling and uncancelling sale 1 of `dbS` (three
apples, item 1 present with ten in stock) restores the exact database
state. -/
theorem c6_cancel_uncancel_roundtrip_witness :
    dbS.sales.Pairwise (fun a b => a.id ≠ b.id) ∧
    dbS.sales.find? (fun x => x.id = 1) = some saleS1 ∧
    saleS1.cancelled = false ∧
    dbS.inventory.find? (fun x => x.id = saleS1.item_id) =
      some itemApple ∧
    (uncancel_sale_db (cancel_sale_db dbS 1).1 1).2 = .ok ∧
    ((cancel_sale_db dbS 1).2 = .ok ∧
     (uncancel_sale_db (cancel_sale_db dbS 1).1 1).1 = dbS) :=
  ⟨by constructor <;> decide, by decide, by decide, by decide, by decide,
   c6_cancel_uncancel_roundtrip dbS 1 saleS1 itemApple
     (by constructor <;> decide) (by decide) (by decide) (by decide)
     (by decide)⟩

/-- Counterexample for C10 as stated: editing item 1 of `dbW` with the
supplied name " x " stores the name "x" — the field changes, but not
to the supplied value, because `update_item_db` strips the name. -/
theorem c10_counterexample :
    ((update_item_db dbW 1 (some " x ") none none none).inventory.getD 0
        default).name = "x" ∧
    "x" ≠ " x " ∧
    (dbW.inventory.getD 0 default).name = "apple" := by
  refine ⟨by decide, by decide, by decide⟩

/-- C10 (amended): an edit of an existing item rewrites exactly the
matched row: each supplied field overwrites the old value — except that
a supplied name is stored stripped of surrounding whitespace — and each
field not supplied keeps its previous value; every other inventory row,
the whole sales table and both id counters are unchanged. -/
theorem c10_update_item_fields (db : DB) (item_id : Nat)
    (name : Option String) (price : Option ℚ) (quantity : Option Int)
    (image_path : Option String) (row : InventoryItem)
    (hpw : InventoryWF db)
    (hfind : db.inventory.find? (fun it => it.id = item_id) = some row) :
    ∃ l1 l2,
      db.inventory = l1 ++ row :: l2 ∧
      (update_item_db db item_id name price quantity
          image_path).inventory =
        l1 ++ { row with
                name := (name.map pyStrip).getD row.name,
                price := price.getD row.price,
                quantity := quantity.getD row.quantity,
                image_path :=
                  (image_path.map some).getD row.image_path } :: l2 ∧
      (update_item_db db item_id name price quantity image_path).sales =
        db.sales ∧
      (update_item_db db item_id name price quantity
          image_path).next_item_id = db.next_item_id ∧
      (update_item_db db item_id name price quantity
          image_path).next_sale_id = db.next_sale_id := by
  obtain ⟨hrowk, l1, l2, hl, h1, h2⟩ :=
    find?_key_decomp db.inventory InventoryItem.id item_id row hfind hpw
  by_cases hn : name = none ∧ price = none ∧ quantity = none ∧
      image_path = none
  · obtain ⟨e1, e2, e3, e4⟩ := hn
    subst e1; subst e2; subst e3; subst e4
    refine ⟨l1, l2, hl, ?_, ?_, ?_, ?_⟩ <;>
      simp [update_item_db, hl]
  · refine ⟨l1, l2, hl, ?_, ?_, ?_, ?_⟩
    · simp only [update_item_db, if_neg hn]
      rw [hl]
      exact map_ite_decomp l1 l2 row (fun it => it.id = item_id)
        (fun it => { it with
          name := (name.map pyStrip).getD it.name,
          price := price.getD it.price,
          quantity := quantity.getD it.quantity,
          image_path := (image_path.map some).getD it.image_path })
        h1 h2 hrowk
    · simp [update_item_db, if_neg hn]
    · simp [update_item_db, if_neg hn]
    · simp [update_item_db, if_neg hn]

/-- Witness for C10: editing item 1 of `dbW` with a new name and a new
quantity rewrites only the apple row, stripping the name, and keeps
the banana row, the sales table and the counters intact. -/
theorem c10_update_item_fields_witness :
    InventoryWF dbW ∧
    dbW.inventory.find? (fun it => it.id = 1) = some itemApple ∧
    ∃ l1 l2,
      dbW.inventory = l1 ++ itemApple :: l2 ∧
      (update_item_db dbW 1 (some " pear ") none (some 5)
          none).inventory =
        l1 ++ { itemApple with
                name := ((some " pear " : Option String).map
                  pyStrip).getD itemApple.name,
                price := (none : Option ℚ).getD itemApple.price,
                quantity := (some (5 : Int)).getD itemApple.quantity,
                image_path := ((none : Option String).map some).getD
                  itemApple.image_path } :: l2 ∧
      (update_item_db dbW 1 (some " pear ") none (some 5) none).sales =
        dbW.sales ∧
      (update_item_db dbW 1 (some " pear ") none (some 5)
          none).next_item_id = dbW.next_item_id ∧
      (update_item_db dbW 1 (some " pear ") none (some 5)
          none).next_sale_id = dbW.next_sale_id :=
  ⟨by constructor <;> decide, by decide,
   c10_update_item_fields dbW 1 (some " pear ") none (some 5) none
     itemApple (by constructor <;> decide) (by decide)⟩

theorem dropWhile_head_false {α : Type} (p : α → Bool) (l : List α)
    (a : α) (t : List α) (h : l.dropWhile p = a :: t) : p a = false := by
  induction l with
  | nil => simp at h
  | cons b bs ih =>
    by_cases hb : p b
    · rw [List.dropWhile_cons, if_pos hb] at h
      exact ih h
    · rw [List.dropWhile_cons, if_neg hb] at h
      cases h
      simpa using hb

theorem dropWhile_of_head_false {α : Type} (p : α → Bool) (l : List α)
    (h : ∀ a t, l = a :: t → p a = false) : l.dropWhile p = l := by
  cases l with
  | nil => rfl
  | cons a t => rw [List.dropWhile_cons, if_neg (by simp [h a t rfl])]

theorem dropWhile_idem {α : Type} (p : α → Bool) (l : List α) :
    (l.dropWhile p).dropWhile p = l.dropWhile p := by
  apply dropWhile_of_head_false
  intro a t h
  exact dropWhile_head_false p l a t h

theorem dropWhile_suffix_exists {α : Type} (p : α → Bool) (l : List α) :
    ∃ f, f ++ l.dropWhile p = l := by
  induction l with
  | nil => exact ⟨[], rfl⟩
  | cons a t ih =>
    by_cases ha : p a
    · obtain ⟨f, hf⟩ := ih
      refine ⟨a :: f, ?_⟩
      rw [List.dropWhile_cons, if_pos ha, List.cons_append, hf]
    · exact ⟨[], by rw [List.dropWhile_cons, if_neg ha]; rfl⟩

theorem pyStrip_idem (s : String) : pyStrip (pyStrip s) = pyStrip s := by
  have key : ∀ L : List Char,
      ((((L.dropWhile Char.isWhitespace).reverse.dropWhile
          Char.isWhitespace).reverse).dropWhile Char.isWhitespace) =
        (((L.dropWhile Char.isWhitespace).reverse.dropWhile
          Char.isWhitespace).reverse) := by
    intro L
    apply dropWhile_of_head_false
    intro a t h
    obtain ⟨f, hf⟩ := dropWhile_suffix_exists Char.isWhitespace
      (L.dropWhile Char.isWhitespace).reverse
    have hA : L.dropWhile Char.isWhitespace =
        (((L.dropWhile Char.isWhitespace).reverse.dropWhile
          Char.isWhitespace).reverse) ++ f.reverse := by
      have h2 := congrArg List.reverse hf
      simpa [List.reverse_append] using h2.symm
    rw [h] at hA
    exact dropWhile_head_false Char.isWhitespace L a _ (by simpa using hA)
  show String.mk _ = String.mk _
  apply congrArg String.mk
  rw [show (pyStrip s).data =
    (((s.data.dropWhile Char.isWhitespace).reverse.dropWhile
      Char.isWhitespace).reverse) from rfl]
  rw [key s.data, List.reverse_reverse, dropWhile_idem]

/-- Counterexample for C7 as stated: the add-item operation accepts a
negative parsed price and a negative parsed quantity (Python `float`
and `int` parse "-1" and "-5" without a `ValueError`) and inserts the
row, where the claim demands a `ValidationError` with no insertion. -/
theorem c7_counterexample :
    (add_item dbW "widget" (some (-1)) (some (-5)) none).2 = .added ∧
    (add_item dbW "widget" (some (-1)) (some (-5))
        none).1.inventory.length = dbW.inventory.length + 1 ∧
    ((add_item dbW "widget" (some (-1)) (some (-5))
        none).1.inventory.getD 2 default).price = -1 ∧
    ((add_item dbW "widget" (some (-1)) (some (-5))
        none).1.inventory.getD 2 default).quantity = -5 :=
  ⟨by decide, by decide, by decide, by decide⟩

/-- C7 (amended): the add-item operation fails — inserting no row —
precisely when the name is empty after stripping or when the price or
quantity fails Python numeric parsing; it performs no sign check, so
parsed negative values are accepted, and on success it appends exactly
one inventory row carrying the stripped name, the parsed price and
quantity, the passed image path and a false favorite flag, leaving the
sales table unchanged. -/
theorem c7_add_item_validation (db : DB) (name : String)
    (priceParse : Option ℚ) (qtyParse : Option Int)
    (image_path : Option String) :
    (pyStrip name = "" →
      add_item db name priceParse qtyParse image_path =
        (db, .emptyName)) ∧
    (pyStrip name ≠ "" → (priceParse = none ∨ qtyParse = none) →
      add_item db name priceParse qtyParse image_path =
        (db, .invalidNumber)) ∧
    (∀ p q, pyStrip name ≠ "" → priceParse = some p →
      qtyParse = some q →
      (add_item db name priceParse qtyParse image_path).2 = .added ∧
      (add_item db name priceParse qtyParse image_path).1.inventory =
        db.inventory ++
          [{ id := db.next_item_id, name := pyStrip name, price := p,
             quantity := q, image_path := image_path,
             favorite := false }] ∧
      (add_item db name priceParse qtyParse image_path).1.sales =
        db.sales) := by
  refine ⟨?_, ?_, ?_⟩
  · intro h
    simp [add_item, h]
  · intro h hor
    rcases hor with hp | hq
    · subst hp
      simp [add_item, h]
    · subst hq
      cases priceParse with
      | none => simp [add_item, h]
      | some p => simp [add_item, h]
  · intro p q h hp hq
    subst hp
    subst hq
    refine ⟨?_, ?_, ?_⟩
    · simp [add_item, h]
    · simp [add_item, h, add_item_with_image, pyStrip_idem]
    · simp [add_item, h, add_item_with_image]

/-- Witness for C7: the three behaviors at concrete inputs — a blank
name is refused, a failed quantity parse is refused, and a valid
request appends the stripped row. -/
theorem c7_add_item_validation_witness :
    (pyStrip "   " = "" ∧
      add_item dbW "   " (some 2) (some 3) none = (dbW, .emptyName)) ∧
    (pyStrip "thing" ≠ "" ∧ ((some 2 : Option ℚ) = none ∨
        (none : Option Int) = none) ∧
      add_item dbW "thing" (some 2) none none = (dbW, .invalidNumber)) ∧
    (pyStrip " gadget " ≠ "" ∧
      (add_item dbW " gadget " (some 3) (some 4) none).2 = .added ∧
      (add_item dbW " gadget " (some 3) (some 4) none).1.inventory =
        dbW.inventory ++
          [{ id := dbW.next_item_id, name := pyStrip " gadget ",
             price := 3, quantity := 4, image_path := none,
             favorite := false }] ∧
      (add_item dbW " gadget " (some 3) (some 4) none).1.sales =
        dbW.sales) :=
  ⟨⟨by decide,
    (c7_add_item_validation dbW "   " (some 2) (some 3) none).1
      (by decide)⟩,
   ⟨by decide, Or.inr rfl,
    (c7_add_item_validation dbW "thing" (some 2) none none).2.1
      (by decide) (Or.inr rfl)⟩,
   by
    refine ⟨by decide, ?_⟩
    exact (c7_add_item_validation dbW " gadget " (some 3) (some 4)
      none).2.2 3 4 (by decide) rfl rfl⟩

theorem checkout_foldl_aux (now : Nat) (cart : List (Nat × Int)) :
    ∀ (db : DB) (acc : List SaleResult),
      (cart.foldl
        (fun acc line =>
          let r := record_sale_db acc.1 line.1 line.2 now
          (r.1, acc.2 ++ [r.2])) (db, acc)).2.length =
        acc.length + cart.length ∧
      (cart.foldl
        (fun acc line =>
          let r := record_sale_db acc.1 line.1 line.2 now
          (r.1, acc.2 ++ [r.2])) (db, acc)).1 =
        cart.foldl (fun d line => (record_sale_db d line.1 line.2 now).1)
          db := by
  induction cart with
  | nil => intro db acc; simp
  | cons line rest ih =>
    intro db acc
    rw [List.foldl_cons, List.foldl_cons]
    have h := ih (record_sale_db db line.1 line.2 now).1
      (acc ++ [(record_sale_db db line.1 line.2 now).2])
    refine ⟨?_, h.2⟩
    rw [h.1]
    simp
    omega

/-- Counterexample for C8 as stated: in `dbW` (ten apples, one
banana), checking out the cart [(apple, 20), (banana, 1)] fails on the
first line with insufficient stock, yet the second line is still
attempted and committed — a banana sale exists afterwards and the
banana stock drops to zero — whereas the claim says later lines are
not attempted. -/
theorem c8_counterexample :
    (checkout dbW [(1, 20), (2, 1)] 0).2[0]? =
      some (.insufficientStock 10) ∧
    ((checkout dbW [(1, 20), (2, 1)] 0).1.sales.filter
      (fun s => s.item_id = 2)).length = 1 ∧
    ((checkout dbW [(1, 20), (2, 1)] 0).1.inventory.find?
      (fun it => it.id = 2)).map InventoryItem.quantity = some 0 :=
  ⟨by decide, by decide, by decide⟩

/-- C8 (amended): checkout invokes the sell operation exactly once per
cart line, in order, producing one status per line, and is not atomic
across lines; a failing line does not stop the loop — the final state
is the left-to-right composition of the per-line sells over the whole
cart, so earlier successful lines stay committed and later lines are
still attempted after a failure. -/
theorem c8_checkout_per_line (db : DB) (cart : List (Nat × Int))
    (now : Nat) :
    (checkout db cart now).2.length = cart.length ∧
    (checkout db cart now).1 =
      cart.foldl (fun d line => (record_sale_db d line.1 line.2 now).1)
        db := by
  have h := checkout_foldl_aux now cart db []
  simpa [checkout] using h

theorem mem_insertByTimestampDesc (x v : SaleView) (l : List SaleView) :
    x ∈ insertByTimestampDesc v l ↔ x = v ∨ x ∈ l := by
  induction l with
  | nil => simp [insertByTimestampDesc]
  | cons w ws ih =>
    rw [insertByTimestampDesc]
    by_cases hw : w.timestamp ≤ v.timestamp
    · rw [if_pos hw]
      simp [List.mem_cons]
    · rw [if_neg hw]
      simp only [List.mem_cons, ih]
      tauto

theorem pairwise_insertByTimestampDesc (v : SaleView) (l : List SaleView)
    (h : List.Pairwise (fun a b => b.timestamp ≤ a.timestamp) l) :
    List.Pairwise (fun a b => b.timestamp ≤ a.timestamp)
      (insertByTimestampDesc v l) := by
  induction l with
  | nil => simp [insertByTimestampDesc]
  | cons w ws ih =>
    rw [insertByTimestampDesc]
    have h2 := List.pairwise_cons.mp h
    by_cases hw : w.timestamp ≤ v.timestamp
    · rw [if_pos hw]
      refine List.pairwise_cons.mpr ⟨?_, h⟩
      intro x hx
      rcases List.mem_cons.mp hx with rfl | hx2
      · exact hw
      · exact le_trans (h2.1 x hx2) hw
    · rw [if_neg hw]
      refine List.pairwise_cons.mpr ⟨?_, ih h2.2⟩
      intro x hx
      rcases (mem_insertByTimestampDesc x v ws).mp hx with rfl | hx2
      · exact le_of_not_le hw
      · exact h2.1 x hx2

theorem pairwise_sortByTimestampDesc (l : List SaleView) :
    List.Pairwise (fun a b => b.timestamp ≤ a.timestamp)
      (sortByTimestampDesc l) := by
  induction l with
  | nil => simp [sortByTimestampDesc]
  | cons v vs ih =>
    rw [sortByTimestampDesc]
    exact pairwise_insertByTimestampDesc v (sortByTimestampDesc vs) ih

theorem mem_sortByTimestampDesc (x : SaleView) (l : List SaleView) :
    x ∈ sortByTimestampDesc l ↔ x ∈ l := by
  induction l with
  | nil => simp [sortByTimestampDesc]
  | cons v vs ih =>
    rw [sortByTimestampDesc, mem_insertByTimestampDesc]
    simp [ih]

/-- Counterexample for C4 as stated: in `dbOrphan` there is exactly
one sale, but it references the deleted item 9, and `list_sales`
returns the empty list — the sale is omitted entirely rather than
annotated with an unknown-item marker, because the query uses an INNER
JOIN. -/
theorem c4_counterexample :
    list_sales dbOrphan = [] ∧ dbOrphan.sales.length = 1 :=
  ⟨by decide, by decide⟩

/-- C4 (amended): the sale listing returns exactly one row per pair of
a sale (cancelled ones included) and a still-existing inventory row
matching its item id — so sales whose item was deleted are omitted,
not annotated — each row carrying the item's current name, and the
result is ordered newest-first by timestamp. -/
theorem c4_list_sales (db : DB) :
    List.Pairwise (fun a b => b.timestamp ≤ a.timestamp)
      (list_sales db) ∧
    (∀ v, v ∈ list_sales db ↔
      ∃ s ∈ db.sales, ∃ it ∈ db.inventory, it.id = s.item_id ∧
        v = { id := s.id, item_name := it.name, quantity := s.quantity,
              total_price := s.total_price, timestamp := s.timestamp,
              cancelled := s.cancelled }) := by
  constructor
  · exact pairwise_sortByTimestampDesc _
  · intro v
    rw [list_sales, mem_sortByTimestampDesc]
    simp only [List.mem_flatMap, List.mem_map, List.mem_filter,
      decide_eq_true_eq]
    constructor
    · rintro ⟨s, hs, it, ⟨hit, hid⟩, hv⟩
      exact ⟨s, hs, it, hit, hid, hv.symm⟩
    · rintro ⟨s, hs, it, hit, hid, hv⟩
      exact ⟨s, hs, it, ⟨hit, hid⟩, hv.symm⟩

theorem activeSalesSum_nil (i : Nat) : activeSalesSum [] i = 0 := rfl

theorem activeSalesSum_singleton (s : Sale) (i : Nat) :
    activeSalesSum [s] i =
      (if ¬ s.cancelled ∧ s.item_id = i then s.quantity else 0) := by
  rw [activeSalesSum_cons, activeSalesSum_nil, add_zero]

theorem ledgerInv_update (db0 db db1 : DB) (J : Nat) (Q : Int)
    (hlen : db1.inventory.length = db.inventory.length)
    (hrows : ∀ k, k < db.inventory.length →
      db1.inventory.getD k default =
        (if (db.inventory.getD k default).id = J
         then { db.inventory.getD k default with
                quantity :=
                  (db.inventory.getD k default).quantity + Q }
         else db.inventory.getD k default))
    (hsum : ∀ i, activeSalesSum db1.sales i =
      activeSalesSum db.sales i - (if J = i then Q else 0))
    (hInv : LedgerInv db0 db) : LedgerInv db0 db1 := by
  constructor
  · rw [hlen, hInv.1]
  · intro k hk
    have hk2 : k < db.inventory.length := by rw [hInv.1]; exact hk
    have hid := (hInv.2 k hk).1
    have hq := (hInv.2 k hk).2
    rw [hrows k hk2, hsum]
    by_cases hx : (db.inventory.getD k default).id = J
    · rw [if_pos hx]
      have hJ : J = (db0.inventory.getD k default).id := by
        rw [← hid, hx]
      rw [if_pos hJ]
      refine ⟨by simpa using hid, ?_⟩
      have hpq : ({ db.inventory.getD k default with
          quantity := (db.inventory.getD k default).quantity + Q }
            : InventoryItem).quantity =
          (db.inventory.getD k default).quantity + Q := rfl
      rw [hpq]
      omega
    · rw [if_neg hx]
      have hJ : ¬ J = (db0.inventory.getD k default).id := by
        rw [← hid]
        exact fun h => hx h.symm
      rw [if_neg hJ]
      exact ⟨hid, by omega⟩

theorem salesWF_map_pres (db db1 : DB) (f : Sale → Sale)
    (hf : ∀ s, (f s).id = s.id) (hs : db1.sales = db.sales.map f)
    (hn : db1.next_sale_id = db.next_sale_id) (h : SalesWF db) :
    SalesWF db1 := by
  constructor
  · intro s hsm
    rw [hs] at hsm
    obtain ⟨a, ha, rfl⟩ := List.mem_map.mp hsm
    rw [hn, hf]
    exact h.1 a ha
  · rw [hs]
    refine List.pairwise_map.mpr (h.2.imp ?_)
    intro a b hab
    rw [hf, hf]
    exact hab

theorem salesWF_filter_pres (db db1 : DB) (p : Sale → Bool)
    (hs : db1.sales = db.sales.filter p)
    (hn : db1.next_sale_id = db.next_sale_id) (h : SalesWF db) :
    SalesWF db1 := by
  constructor
  · intro s hsm
    rw [hs] at hsm
    rw [hn]
    exact h.1 s (List.mem_filter.mp hsm).1
  · rw [hs]
    exact List.Pairwise.sublist (List.filter_sublist db.sales) h.2

theorem sell_preserves (db0 db : DB) (item_id : Nat) (q : Int)
    (now : Nat) (hWF : SalesWF db) (hInv : LedgerInv db0 db) :
    SalesWF (record_sale_db db item_id q now).1 ∧
    LedgerInv db0 (record_sale_db db item_id q now).1 := by
  cases hfind : db.inventory.find? (fun it => it.id = item_id) with
  | none =>
    simp only [record_sale_db, hfind]
    exact ⟨hWF, hInv⟩
  | some row =>
    by_cases hq : q ≤ 0
    · simp only [record_sale_db, hfind, if_pos hq]
      exact ⟨hWF, hInv⟩
    · by_cases hs : row.quantity < q
      · simp only [record_sale_db, hfind, if_neg hq, if_pos hs]
        exact ⟨hWF, hInv⟩
      · simp only [record_sale_db, hfind, if_neg hq, if_neg hs]
        constructor
        · constructor
          · intro s hsm
            rcases List.mem_append.mp hsm with h1 | h1
            · exact Nat.lt_succ_of_lt (hWF.1 s h1)
            · rw [List.mem_singleton.mp h1]
              exact Nat.lt_succ_self _
          · refine List.pairwise_append.mpr
              ⟨hWF.2, List.pairwise_singleton _ _, ?_⟩
            intro a ha b hb
            rw [List.mem_singleton.mp hb]
            exact Nat.ne_of_lt (hWF.1 a ha)
        · refine ledgerInv_update db0 db _ item_id (-q) ?_ ?_ ?_ hInv
          · simp
          · intro k hk
            rw [getD_map_ite db.inventory (fun it => it.id = item_id)
              (fun it => { it with quantity := it.quantity - q }) k hk]
            by_cases hx : (db.inventory.getD k default).id = item_id
            · rw [if_pos hx, if_pos hx, sub_eq_add_neg]
            · rw [if_neg hx, if_neg hx]
          · intro i
            rw [activeSalesSum_append, activeSalesSum_singleton]
            by_cases hi : item_id = i
            · simp only [hi]
              simp
            · simp [hi]

theorem cancel_preserves (db0 db : DB) (sale_id : Nat)
    (hWF : SalesWF db) (hInv : LedgerInv db0 db) :
    SalesWF (cancel_sale_db db sale_id).1 ∧
    LedgerInv db0 (cancel_sale_db db sale_id).1 := by
  cases hfind : db.sales.find? (fun s => s.id = sale_id) with
  | none =>
    simp only [cancel_sale_db, hfind]
    exact ⟨hWF, hInv⟩
  | some row =>
    cases hcb : row.cancelled with
    | true =>
      simp only [cancel_sale_db, hfind, hcb, if_true]
      exact ⟨hWF, hInv⟩
    | false =>
      obtain ⟨hrowk, l1, l2, hl, h1, h2⟩ :=
        find?_key_decomp db.sales Sale.id sale_id row hfind hWF.2
      simp only [cancel_sale_db, hfind, hcb, Bool.false_eq_true,
        if_false]
      constructor
      · refine salesWF_map_pres db _
          (fun s => if s.id = sale_id then { s with cancelled := true }
            else s) ?_ rfl rfl hWF
        intro s
        by_cases h : s.id = sale_id
        · simp [h]
        · simp [h]
      · refine ledgerInv_update db0 db _ row.item_id row.quantity
          ?_ ?_ ?_ hInv
        · simp
        · intro k hk
          rw [getD_map_ite db.inventory
            (fun it => it.id = row.item_id)
            (fun it => { it with quantity := it.quantity + row.quantity })
            k hk]
        · intro i
          show activeSalesSum (db.sales.map (fun s =>
            if s.id = sale_id then { s with cancelled := true } else s)) i
              = _
          rw [hl]
          rw [map_ite_decomp l1 l2 row (fun s => s.id = sale_id)
            (fun s => { s with cancelled := true }) h1 h2 hrowk]
          rw [activeSalesSum_append, activeSalesSum_cons,
            activeSalesSum_append, activeSalesSum_cons]
          by_cases hi : row.item_id = i
          · simp only [hi]
            simp [hcb]
            omega
          · simp [hi]

theorem uncancel_preserves (db0 db : DB) (sale_id : Nat)
    (hWF : SalesWF db) (hInv : LedgerInv db0 db) :
    SalesWF (uncancel_sale_db db sale_id).1 ∧
    LedgerInv db0 (uncancel_sale_db db sale_id).1 := by
  cases hfind : db.sales.find? (fun s => s.id = sale_id) with
  | none =>
    simp only [uncancel_sale_db, hfind]
    exact ⟨hWF, hInv⟩
  | some row =>
    cases hcb : row.cancelled with
    | false =>
      have happ : uncancel_sale_db db sale_id = (db, .notCancelled) := by
        simp [uncancel_sale_db, hfind, hcb]
      rw [happ]
      exact ⟨hWF, hInv⟩
    | true =>
      cases hit : db.inventory.find? (fun it => it.id = row.item_id) with
      | none =>
        have happ : uncancel_sale_db db sale_id = (db, .itemNotFound) := by
          simp [uncancel_sale_db, hfind, hcb, hit]
        rw [happ]
        exact ⟨hWF, hInv⟩
      | some item_row =>
        by_cases hlt : item_row.quantity < row.quantity
        · have happ : uncancel_sale_db db sale_id =
              (db, .insufficientStock) := by
            simp [uncancel_sale_db, hfind, hcb, hit, hlt]
          rw [happ]
          exact ⟨hWF, hInv⟩
        · obtain ⟨hrowk, l1, l2, hl, h1, h2⟩ :=
            find?_key_decomp db.sales Sale.id sale_id row hfind hWF.2
          have happ : uncancel_sale_db db sale_id =
              ({ db with
                  inventory := db.inventory.map (fun it =>
                    if it.id = row.item_id then
                      { it with quantity := it.quantity - row.quantity }
                    else it),
                  sales := db.sales.map (fun s =>
                    if s.id = sale_id then { s with cancelled := false }
                    else s) }, .ok) := by
            simp [uncancel_sale_db, hfind, hcb, hit, hlt]
          rw [happ]
          constructor
          · refine salesWF_map_pres db _
              (fun s => if s.id = sale_id then
                { s with cancelled := false } else s) ?_ rfl rfl hWF
            intro s
            by_cases h : s.id = sale_id
            · simp [h]
            · simp [h]
          · refine ledgerInv_update db0 db _ row.item_id
              (-row.quantity) ?_ ?_ ?_ hInv
            · simp
            · intro k hk
              show ((db.inventory.map (fun it =>
                if it.id = row.item_id then
                  { it with quantity := it.quantity - row.quantity }
                else it)).getD k default) = _
              rw [getD_map_ite db.inventory
                (fun it => it.id = row.item_id)
                (fun it =>
                  { it with quantity := it.quantity - row.quantity })
                k hk]
              by_cases hx : (db.inventory.getD k default).id =
                  row.item_id
              · rw [if_pos hx, if_pos hx, sub_eq_add_neg]
              · rw [if_neg hx, if_neg hx]
            · intro i
              show activeSalesSum (db.sales.map (fun s =>
                if s.id = sale_id then { s with cancelled := false }
                else s)) i = _
              rw [hl]
              rw [map_ite_decomp l1 l2 row (fun s => s.id = sale_id)
                (fun s => { s with cancelled := false }) h1 h2 hrowk]
              rw [activeSalesSum_append, activeSalesSum_cons,
                activeSalesSum_append, activeSalesSum_cons]
              by_cases hi : row.item_id = i
              · simp only [hi]
                simp [hcb]
                omega
              · simp [hi]

theorem deleteSale_preserves (db0 db : DB) (sale_id : Nat)
    (hWF : SalesWF db) (hInv : LedgerInv db0 db) :
    SalesWF (delete_sale_db db sale_id).1 ∧
    LedgerInv db0 (delete_sale_db db sale_id).1 := by
  cases hfind : db.sales.find? (fun s => s.id = sale_id) with
  | none =>
    simp only [delete_sale_db, hfind]
    exact ⟨hWF, hInv⟩
  | some row =>
    obtain ⟨hrowk, l1, l2, hl, h1, h2⟩ :=
      find?_key_decomp db.sales Sale.id sale_id row hfind hWF.2
    have hfilter : (db.sales.filter (fun s => ¬ s.id = sale_id)) =
        l1 ++ l2 := by
      rw [hl]
      exact filter_not_decomp l1 l2 row (fun s => s.id = sale_id)
        h1 h2 hrowk
    have hsumdrop : ∀ i,
        activeSalesSum (db.sales.filter (fun s => ¬ s.id = sale_id)) i =
          activeSalesSum db.sales i -
            (if ¬ row.cancelled ∧ row.item_id = i then row.quantity
             else 0) := by
      intro i
      rw [hfilter, hl, activeSalesSum_append, activeSalesSum_append,
        activeSalesSum_cons]
      omega
    cases hcb : row.cancelled with
    | true =>
      simp only [delete_sale_db, hfind, hcb, if_true]
      constructor
      · exact salesWF_filter_pres db _ _ rfl rfl hWF
      · refine ledgerInv_update db0 db _ row.item_id 0 ?_ ?_ ?_ hInv
        · rfl
        · intro k hk
          by_cases hx : (db.inventory.getD k default).id = row.item_id
          · rw [if_pos hx]
            simp
          · rw [if_neg hx]
        · intro i
          rw [hsumdrop i]
          simp [hcb]
    | false =>
      simp only [delete_sale_db, hfind, hcb, Bool.false_eq_true,
        if_false]
      constructor
      · exact salesWF_filter_pres db _ _ rfl rfl hWF
      · refine ledgerInv_update db0 db _ row.item_id row.quantity
          ?_ ?_ ?_ hInv
        · simp
        · intro k hk
          rw [getD_map_ite db.inventory
            (fun it => it.id = row.item_id)
            (fun it => { it with quantity := it.quantity + row.quantity })
            k hk]
        · intro i
          rw [hsumdrop i]
          by_cases hi : row.item_id = i
          · simp [hcb, hi]
          · simp [hcb, hi]

theorem applyOps_preserves (db0 : DB) (ops : List LedgerOp) :
    ∀ db : DB, SalesWF db → LedgerInv db0 db →
      SalesWF (applyOps db ops) ∧ LedgerInv db0 (applyOps db ops) := by
  induction ops with
  | nil => intro db hWF hInv; exact ⟨hWF, hInv⟩
  | cons op rest ih =>
    intro db hWF hInv
    rw [applyOps, List.foldl_cons]
    have hstep : SalesWF (applyOp db op) ∧
        LedgerInv db0 (applyOp db op) := by
      cases op with
      | sell item_id q now => exact sell_preserves db0 db item_id q now hWF hInv
      | cancel sale_id => exact cancel_preserves db0 db sale_id hWF hInv
      | uncancel sale_id => exact uncancel_preserves db0 db sale_id hWF hInv
      | deleteSale sale_id => exact deleteSale_preserves db0 db sale_id hWF hInv
    exact ih (applyOp db op) hstep.1 hstep.2

/-- C1: starting from any database with no sales, after any sequence
of sell, cancel, uncancel and sale-delete operations, the inventory
rows are positionally unchanged in ids, and every row's original
quantity equals its current quantity plus the summed quantities of the
non-cancelled sales referencing it. -/
theorem c1_quantity_conservation (db0 : DB) (ops : List LedgerOp)
    (h0 : db0.sales = []) :
    (applyOps db0 ops).inventory.length = db0.inventory.length ∧
    ∀ k, k < db0.inventory.length →
      ((applyOps db0 ops).inventory.getD k default).id =
        (db0.inventory.getD k default).id ∧
      (db0.inventory.getD k default).quantity =
        ((applyOps db0 ops).inventory.getD k default).quantity +
          activeSalesSum (applyOps db0 ops).sales
            (db0.inventory.getD k default).id := by
  have hWF0 : SalesWF db0 := by
    constructor
    · intro s hsm
      rw [h0] at hsm
      simp at hsm
    · rw [h0]
      exact List.Pairwise.nil
  have hInv0 : LedgerInv db0 db0 := by
    refine ⟨rfl, ?_⟩
    intro k hk
    refine ⟨rfl, ?_⟩
    rw [h0, activeSalesSum_nil, add_zero]
  exact (applyOps_preserves db0 ops db0 hWF0 hInv0).2

/-- Witness for C1: from `dbW` (no sales), selling three apples, one
banana, cancelling the apple sale and deleting the banana sale leaves
every item's original quantity equal to current quantity plus its
active-sale total. -/
theorem c1_quantity_conservation_witness :
    dbW.sales = [] ∧
    ((applyOps dbW [.sell 1 3 100, .sell 2 1 200, .cancel 1,
        .deleteSale 2]).inventory.length = dbW.inventory.length ∧
     ∀ k, k < dbW.inventory.length →
       ((applyOps dbW [.sell 1 3 100, .sell 2 1 200, .cancel 1,
           .deleteSale 2]).inventory.getD k default).id =
         (dbW.inventory.getD k default).id ∧
       (dbW.inventory.getD k default).quantity =
         ((applyOps dbW [.sell 1 3 100, .sell 2 1 200, .cancel 1,
             .deleteSale 2]).inventory.getD k default).quantity +
           activeSalesSum (applyOps dbW [.sell 1 3 100, .sell 2 1 200,
             .cancel 1, .deleteSale 2]).sales
             (dbW.inventory.getD k default).id) :=
  ⟨rfl, c1_quantity_conservation dbW [.sell 1 3 100, .sell 2 1 200,
    .cancel 1, .deleteSale 2] rfl⟩
